import Mathlib

/-!
# Verification of the Dragonfly2 scheduler announcer (scheduler/announcer/announcer.go)

A shallow embedding of the announcer subsystem.  Pure data (configuration,
request messages) becomes Lean structures; the effectful Go code becomes
functions over explicit scripts of collaborator responses (read results,
send results, RPC outcomes), returning the result value together with the
observable trace (messages sent, calls issued, resources closed).
-/

namespace Announcer

/-- `UploadBufferSize` from announcer.go: the fixed 1 MiB transfer buffer. -/
def UploadBufferSize : Nat := 1024 * 1024

/-! ## Configuration (the fields of `config.Config` the announcer reads) -/

/-- `config.Server` fields read by the announcer. -/
structure ServerConfig where
  host : String
  advertiseIP : String
  advertisePort : Nat
  deriving DecidableEq, Repr

/-- `config.Host` fields read by the announcer. -/
structure HostConfig where
  idc : String
  location : String
  deriving DecidableEq, Repr

/-- `config.Manager.KeepAlive` fields read by the announcer. -/
structure KeepAliveConfig where
  interval : Nat
  deriving DecidableEq, Repr

/-- `config.Manager` fields read by the announcer. -/
structure ManagerConfig where
  schedulerClusterID : Nat
  keepAlive : KeepAliveConfig
  deriving DecidableEq, Repr

/-- `config.Trainer` fields read by the announcer. -/
structure TrainerConfig where
  interval : Nat
  uploadTimeout : Nat
  deriving DecidableEq, Repr

/-- The slice of `config.Config` the announcer reads. -/
structure Config where
  server : ServerConfig
  host : HostConfig
  manager : ManagerConfig
  trainer : TrainerConfig
  deriving DecidableEq, Repr

/-! ## Wire messages -/

/-- The two dataset variants of `trainerv1.TrainRequest`:
`TrainMlpRequest` (download records) and `TrainGnnRequest` (network topology). -/
inductive DatasetTag where
  | mlp
  | gnn
  deriving DecidableEq, Repr

/-- A `trainerv1.TrainRequest` message as built in
`uploadDownloadToTrainer` / `uploadNetworkTopologyToTrainer`:
identity fields plus one tagged dataset chunk (bytes as `Nat`s). -/
structure TrainRequest where
  hostname : String
  ip : String
  clusterId : Nat
  tag : DatasetTag
  dataset : List Nat
  deriving DecidableEq, Repr

/-- The `managerv2.UpdateSchedulerRequest` built in `New`. -/
structure UpdateSchedulerRequest where
  hostname : String
  ip : String
  port : Nat
  idc : String
  location : String
  schedulerClusterId : Nat
  deriving DecidableEq, Repr

/-- The `managerv2.KeepAliveRequest` built in `announceToManager`. -/
structure KeepAliveRequest where
  hostname : String
  ip : String
  clusterId : Nat
  deriving DecidableEq, Repr

/-- The registration request `New` sends, assembled from the configuration
exactly as in announcer.go lines 86-94. -/
def registrationRequest (cfg : Config) : UpdateSchedulerRequest :=
  { hostname := cfg.server.host
    ip := cfg.server.advertiseIP
    port := cfg.server.advertisePort
    idc := cfg.host.idc
    location := cfg.host.location
    schedulerClusterId := cfg.manager.schedulerClusterID }

/-- The keepalive request `announceToManager` sends, assembled from the
configuration exactly as in announcer.go lines 128-133. -/
def keepAliveRequest (cfg : Config) : KeepAliveRequest :=
  { hostname := cfg.server.host
    ip := cfg.server.advertiseIP
    clusterId := cfg.manager.schedulerClusterID }

/-- Build the `TrainRequest` sent by `uploadDownloadToTrainer` (MLP variant)
for one chunk. -/
def mkMlpRequest (cfg : Config) (chunk : List Nat) : TrainRequest :=
  { hostname := cfg.server.host
    ip := cfg.server.advertiseIP
    clusterId := cfg.manager.schedulerClusterID
    tag := DatasetTag.mlp
    dataset := chunk }

/-- Build the `TrainRequest` sent by `uploadNetworkTopologyToTrainer`
(GNN variant) for one chunk. -/
def mkGnnRequest (cfg : Config) (chunk : List Nat) : TrainRequest :=
  { hostname := cfg.server.host
    ip := cfg.server.advertiseIP
    clusterId := cfg.manager.schedulerClusterID
    tag := DatasetTag.gnn
    dataset := chunk }

/-! ## The upload task (announcer.go lines 193-262)

Both upload functions run the same loop:

```go
buf := make([]byte, UploadBufferSize)
for {
    n, err := readCloser.Read(buf)
    if err != nil && err != io.EOF { return err }
    if err := stream.Send(...buf[:n]...); err != nil { return err }
    if err == io.EOF { break }
}
```

A `Read` call is scripted as a pair `(chunk, rerr)`: the bytes it returned
(`buf[:n]`) and its Go error, `none` for nil.  `Send` outcomes are scripted
as a function from the send's ordinal number to `Option String`
(`none` = nil error). -/

/-- A non-nil Go error as seen by the read loop: either `io.EOF` or some
other error carrying a message. -/
inductive GoErr where
  | eof
  | msg (s : String)
  deriving DecidableEq, Repr

/-- One scripted result of `readCloser.Read(buf)`: the bytes written into
the buffer and the returned error (`none` = nil). -/
abbrev ReadResult := List Nat × Option GoErr

/-- The chunk-upload loop of `uploadDownloadToTrainer` /
`uploadNetworkTopologyToTrainer` (lines 200-223 and 236-259), run against
a script of read results and a script of send outcomes.  Returns the Go
error result (`Except.error e` for `return err`) and the list of
`TrainRequest` messages passed to `stream.Send`, in order.  `i` is the
ordinal of the next send. -/
def uploadLoop (mkReq : List Nat → TrainRequest) (send : Nat → Option String) :
    List ReadResult → Nat → Except String Unit × List TrainRequest
  | [], _ => (Except.ok (), [])
  | (chunk, rerr) :: reads, i =>
      match rerr with
      | some (GoErr.msg e) =>
          -- if err != nil && err != io.EOF { return err }
          (Except.error e, [])
      | _ =>
          match send i with
          | some e => (Except.error e, [mkReq chunk])
          | none =>
              if rerr = some GoErr.eof then
                -- if err == io.EOF { break }; return nil
                (Except.ok (), [mkReq chunk])
              else
                let rest := uploadLoop mkReq send reads (i + 1)
                (rest.1, mkReq chunk :: rest.2)

/-- `uploadDownloadToTrainer` (lines 193-226): opens the download dataset
stream from storage (`openResult` scripts `a.storage.OpenDownload()`), and
on success runs the upload loop with `defer readCloser.Close()`.  Returns
the Go result, the sent messages, and whether `Close` was called on the
readable stream. -/
def uploadDownloadToTrainer (cfg : Config)
    (openResult : Except String (List ReadResult)) (send : Nat → Option String) :
    Except String Unit × List TrainRequest × Bool :=
  match openResult with
  | Except.error e => (Except.error e, [], false)
  | Except.ok reads =>
      let r := uploadLoop (mkMlpRequest cfg) send reads 0
      -- defer readCloser.Close() runs on every exit path of the loop
      (r.1, r.2, true)

/-- `uploadNetworkTopologyToTrainer` (lines 229-262): identical to
`uploadDownloadToTrainer` but reads `a.storage.OpenNetworkTopology()` and
sends the GNN message variant. -/
def uploadNetworkTopologyToTrainer (cfg : Config)
    (openResult : Except String (List ReadResult)) (send : Nat → Option String) :
    Except String Unit × List TrainRequest × Bool :=
  match openResult with
  | Except.error e => (Except.error e, [], false)
  | Except.ok reads =>
      let r := uploadLoop (mkGnnRequest cfg) send reads 0
      (r.1, r.2, true)

/-! ## Simulated error-free dataset streams

A dataset of `data` bytes read through a fixed buffer of `bufSize` bytes,
with the standard Go reader semantics for an in-memory or on-disk stream
(`bytes.Reader` / `os.File`): while data remains, `Read` fills the buffer
and returns a nil error; once the data is exhausted, `Read` returns
`(0, io.EOF)`. -/

/-- The read-result script of an error-free stream over `data`, read into
a buffer of `bufSize` bytes.  The `bufSize = 0` guard is for totality
only: every use instantiates `bufSize` with the positive constant
`UploadBufferSize`. -/
def streamReads (bufSize : Nat) (data : List Nat) : List ReadResult :=
  if data = [] ∨ bufSize = 0 then [([], some GoErr.eof)]
  else (data.take bufSize, none) :: streamReads bufSize (data.drop bufSize)
termination_by data.length
decreasing_by
  rename_i h
  push_neg at h
  simp only [List.length_drop]
  have : 0 < data.length := List.length_pos.mpr h.1
  omega

/-- The always-successful send script (`stream.Send` returns nil). -/
def sendOk : Nat → Option String := fun _ => none

/-- The payloads of the messages `uploadDownloadToTrainer` sends for an
error-free dataset stream of `data` bytes. -/
def downloadPayloads (cfg : Config) (data : List Nat) : List (List Nat) :=
  (uploadDownloadToTrainer cfg (Except.ok (streamReads UploadBufferSize data)) sendOk).2.1.map
    TrainRequest.dataset

/-- The payloads of the messages `uploadNetworkTopologyToTrainer` sends for
an error-free dataset stream of `data` bytes. -/
def topologyPayloads (cfg : Config) (data : List Nat) : List (List Nat) :=
  (uploadNetworkTopologyToTrainer cfg (Except.ok (streamReads UploadBufferSize data)) sendOk).2.1.map
    TrainRequest.dataset

/-- Modelled from the spec (the claimed message sequence, for comparison):
"an Upload Task emits exactly `k` full-size chunk messages and, if
`r > 0`, exactly one final partial chunk message, with no empty trailing
message": the dataset split into maximal `bufSize`-byte chunks and nothing
else. -/
def specChunks (bufSize : Nat) (data : List Nat) : List (List Nat) :=
  if data = [] ∨ bufSize = 0 then []
  else data.take bufSize :: specChunks bufSize (data.drop bufSize)
termination_by data.length
decreasing_by
  rename_i h
  push_neg at h
  simp only [List.length_drop]
  have : 0 < data.length := List.length_pos.mpr h.1
  omega

/-! ## Unfolding lemmas -/

theorem streamReads_nil (B : Nat) : streamReads B [] = [([], some GoErr.eof)] := by
  rw [streamReads]
  simp

theorem streamReads_cons (B : Nat) (data : List Nat) (h : data ≠ []) (hB : B ≠ 0) :
    streamReads B data = (data.take B, none) :: streamReads B (data.drop B) := by
  rw [streamReads]
  rw [if_neg (not_or.mpr ⟨h, hB⟩)]

theorem specChunks_nil (B : Nat) : specChunks B [] = [] := by
  rw [specChunks]
  simp

theorem specChunks_cons (B : Nat) (data : List Nat) (h : data ≠ []) (hB : B ≠ 0) :
    specChunks B data = data.take B :: specChunks B (data.drop B) := by
  rw [specChunks]
  rw [if_neg (not_or.mpr ⟨h, hB⟩)]

/-- On an error-free stream with all sends succeeding, the upload loop
returns nil and sends exactly the dataset's maximal chunks in order,
followed by one final empty-payload message (the read that returned
`(0, io.EOF)` is still sent before the loop breaks). -/
theorem uploadLoop_streamReads (B : Nat) (hB : 0 < B) (mkReq : List Nat → TrainRequest)
    (data : List Nat) (i : Nat) :
    uploadLoop mkReq sendOk (streamReads B data) i
      = (Except.ok (), (specChunks B data ++ [[]]).map mkReq) := by
  suffices h : ∀ (n : Nat) (d : List Nat), d.length ≤ n → ∀ (j : Nat),
      uploadLoop mkReq sendOk (streamReads B d) j
        = (Except.ok (), (specChunks B d ++ [[]]).map mkReq) by
    exact h data.length data le_rfl i
  intro n
  induction n with
  | zero =>
      intro d hd j
      have hnil : d = [] := List.eq_nil_of_length_eq_zero (Nat.le_zero.mp hd)
      subst hnil
      rw [streamReads_nil, specChunks_nil]
      simp [uploadLoop, sendOk]
  | succ n ih =>
      intro d hd j
      by_cases hnil : d = []
      · subst hnil
        rw [streamReads_nil, specChunks_nil]
        simp [uploadLoop, sendOk]
      · rw [streamReads_cons B d hnil (by omega), specChunks_cons B d hnil (by omega)]
        have hdrop : (d.drop B).length ≤ n := by
          have : 0 < d.length := List.length_pos.mpr hnil
          simp only [List.length_drop]
          omega
        have hrec := ih (d.drop B) hdrop (j + 1)
        simp only [uploadLoop, sendOk, hrec]
        simp

/-- For a dataset of `k * B + r` bytes (`r < B`), the spec-side chunk list
contains exactly `k` full-size chunks. -/
theorem specChunks_count_full (B : Nat) (hB : 0 < B) (k r : Nat) (data : List Nat)
    (hlen : data.length = k * B + r) (hr : r < B) :
    (specChunks B data).countP (fun c => decide (c.length = B)) = k := by
  induction k generalizing data r with
  | zero =>
      by_cases hnil : data = []
      · subst hnil
        rw [specChunks_nil]
        simp
      · rw [specChunks_cons B data hnil (by omega)]
        have h1 : data.length = r := by omega
        have h2 : data.take B = data := List.take_of_length_le (by omega)
        have h3 : data.drop B = [] := List.drop_eq_nil_of_le (by omega)
        rw [h2, h3, specChunks_nil]
        simp only [List.countP_cons, List.countP_nil]
        have : ¬(data.length = B) := by omega
        simp [this]
  | succ k ih =>
      have hne : data ≠ [] := by
        intro h
        rw [h] at hlen
        simp only [List.length_nil] at hlen
        have hBle : B ≤ (k + 1) * B := Nat.le_mul_of_pos_left B (by omega)
        omega
      rw [specChunks_cons B data hne (by omega)]
      have hgeB : B ≤ data.length := by
        have hBle : B ≤ (k + 1) * B := Nat.le_mul_of_pos_left B (by omega)
        omega
      have htake : (data.take B).length = B := by
        simp [List.length_take]
        omega
      have hdrop : (data.drop B).length = k * B + r := by
        simp only [List.length_drop]
        have hsp : (k + 1) * B = k * B + B := by ring
        omega
      rw [List.countP_cons]
      rw [ih r (data.drop B) hdrop hr]
      simp [htake]

/-- For a dataset of `k * B + r` bytes (`r < B`), the spec-side chunk list
contains one strictly-partial (nonempty, shorter than `B`) chunk when
`r > 0` and none when `r = 0`; it never contains an empty chunk. -/
theorem specChunks_count_partial (B : Nat) (hB : 0 < B) (k r : Nat) (data : List Nat)
    (hlen : data.length = k * B + r) (hr : r < B) :
    (specChunks B data).countP (fun c => decide (0 < c.length) && decide (c.length < B))
      = (if 0 < r then 1 else 0) ∧
    ∀ c ∈ specChunks B data, c ≠ [] := by
  induction k generalizing data r with
  | zero =>
      by_cases hnil : data = []
      · subst hnil
        rw [specChunks_nil]
        simp only [List.length_nil] at hlen
        have hr0 : r = 0 := by omega
        subst hr0
        simp
      · rw [specChunks_cons B data hnil (by omega)]
        have h1 : data.length = r := by omega
        have h2 : data.take B = data := List.take_of_length_le (by omega)
        have h3 : data.drop B = [] := List.drop_eq_nil_of_le (by omega)
        rw [h2, h3, specChunks_nil]
        have hpos : 0 < data.length := List.length_pos.mpr hnil
        constructor
        · simp only [List.countP_cons, List.countP_nil]
          have ha : 0 < data.length := hpos
          have hb : data.length < B := by omega
          have hc : 0 < r := by omega
          simp [ha, hb, hc]
        · intro c hc
          simp at hc
          subst hc
          exact hnil
  | succ k ih =>
      have hne : data ≠ [] := by
        intro h
        rw [h] at hlen
        simp only [List.length_nil] at hlen
        have hBle : B ≤ (k + 1) * B := Nat.le_mul_of_pos_left B (by omega)
        omega
      rw [specChunks_cons B data hne (by omega)]
      have hgeB : B ≤ data.length := by
        have hBle : B ≤ (k + 1) * B := Nat.le_mul_of_pos_left B (by omega)
        omega
      have htake : (data.take B).length = B := by
        simp [List.length_take]
        omega
      have hdrop : (data.drop B).length = k * B + r := by
        simp only [List.length_drop]
        have hsp : (k + 1) * B = k * B + B := by ring
        omega
      obtain ⟨ihc, ihne⟩ := ih r (data.drop B) hdrop hr
      constructor
      · rw [List.countP_cons, ihc]
        have hnp : ¬((data.take B).length < B) := by omega
        simp [hnp]
        omega
      · intro c hc
        rcases List.mem_cons.mp hc with h | h
        · subst h
          intro habs
          rw [habs] at htake
          simp at htake
          omega
        · exact ihne c h

/-! ## The announcer object, construction and lifecycle
(announcer.go lines 53-152) -/

/-- The `announcer` struct.  The borrowed clients are not stored as data:
their behaviour enters through the response scripts of each operation.
`hasTrainerClient` records whether `WithTrainerClient` supplied a trainer
(`a.trainerClient != nil`), `doneClosed` is the state of the `done`
channel. -/
structure AnnouncerState where
  config : Config
  hasTrainerClient : Bool
  doneClosed : Bool
  deriving DecidableEq, Repr

/-- Calls the announcer issues to its collaborators, in program order. -/
inductive CallEvent where
  | updateScheduler (req : UpdateSchedulerRequest)
  | keepAliveStart (interval : Nat) (req : KeepAliveRequest)
  deriving DecidableEq, Repr

/-- `New` (lines 73-99): builds the announcer, applies options, then
registers with the manager via one `UpdateScheduler` call.
`updateSchedulerResult` scripts the manager client's response (`none` =
success).  Returns the Go result (`(nil, err)` becomes `Except.error err`)
and the trace of collaborator calls `New` issued. -/
def New (cfg : Config) (hasTrainer : Bool) (updateSchedulerResult : Option String) :
    Except String AnnouncerState × List CallEvent :=
  let a : AnnouncerState :=
    { config := cfg, hasTrainerClient := hasTrainer, doneClosed := false }
  -- Register to manager.
  match updateSchedulerResult with
  | some err => (Except.error err, [CallEvent.updateScheduler (registrationRequest cfg)])
  | none => (Except.ok a, [CallEvent.updateScheduler (registrationRequest cfg)])

/-- Go's `close` builtin on a `chan struct{}`: marks the channel closed,
panicking if it is already closed. -/
def closeChan (closed : Bool) : Except String Bool :=
  if closed then Except.error "close of closed channel" else Except.ok true

/-- `Stop` (lines 119-122): `close(a.done); return nil`.  The outer
`Except` is a Go panic; the inner `Option String` is the returned `error`
value (always nil when no panic occurs). -/
def Stop (a : AnnouncerState) : Except String (AnnouncerState × Option String) :=
  match closeChan a.doneClosed with
  | Except.error p => Except.error p
  | Except.ok c => Except.ok ({ a with doneClosed := c }, none)

/-- `announceToManager` (lines 125-137): spawns the detached keepalive
goroutine and returns nil unconditionally.  Returns the Go error result
and the calls issued. -/
def announceToManager (a : AnnouncerState) : Option String × List CallEvent :=
  (none,
   [CallEvent.keepAliveStart a.config.manager.keepAlive.interval
      (keepAliveRequest a.config)])

/-- One iteration of the `select` in `announceToTrainer`: either the
ticker fires (and `train()` runs with the scripted outcome) or the `done`
channel is ready. -/
inductive LoopEvent where
  | tick (trainResult : Except String Unit)
  | done
  deriving Repr

/-- `announceToTrainer` (lines 140-152): loops selecting between the
ticker and the `done` channel; a failed round is logged and the loop goes
on; on `done` it returns nil.  The loop is run against a finite script of
select outcomes; `none` means the script ended with the loop still
running (it never returned). -/
def announceToTrainer : List LoopEvent → Option (Except String Unit)
  | [] => none
  | LoopEvent.tick _ :: rest =>
      -- if err := a.train(); err != nil { logger.Error(err) }
      announceToTrainer rest
  | LoopEvent.done :: _ => some (Except.ok ())

/-- `Serve` (lines 102-116): runs `announceToManager`, then, when a
trainer client is configured, blocks in `announceToTrainer`.  Returns the
result of `Serve` (`none` while still blocked in the training loop) and
the calls issued. -/
def Serve (a : AnnouncerState) (events : List LoopEvent) :
    Option (Except String Unit) × List CallEvent :=
  let m := announceToManager a
  match m.1 with
  | some err => (some (Except.error err), m.2)
  | none =>
      if a.hasTrainerClient then
        match announceToTrainer events with
        | none => (none, m.2)
        | some r =>
            match r with
            | Except.error err => (some (Except.error err), m.2)
            | Except.ok () => (some (Except.ok ()), m.2)
      else (some (Except.ok ()), m.2)

/-! ## One training round (`train`, lines 155-190) -/

/-- `errgroup.Group.Wait` over the two upload goroutines: waits for both
and returns the error of the goroutine that failed first in completion
order (`downloadFirst` says which goroutine completed first), or `none`
when both returned nil. -/
def errgroupWait (downloadFirst : Bool) (download networkTopology : Option String) :
    Option String :=
  if downloadFirst then
    match download with
    | some e => some e
    | none => networkTopology
  else
    match networkTopology with
    | some e => some e
    | none => download

/-- `train` (lines 155-190), with every collaborator outcome scripted:
`streamOpen` is `a.trainerClient.Train(ctx)`; `download` /
`networkTopology` are the raw results of the two upload functions
(`none` = nil); `downloadFirst` is the completion order of the two
goroutines; `closeAndRecv` is the result of `stream.CloseAndRecv()`.
Returns the round's result and whether `CloseAndRecv` was invoked
(the stream was finalized). -/
def train (streamOpen : Option String) (download networkTopology : Option String)
    (downloadFirst : Bool) (closeAndRecv : Option String) :
    Except String Unit × Bool :=
  match streamOpen with
  | some err => (Except.error err, false)
  | none =>
      let downloadWrapped := download.map (fun e => "upload download: " ++ e)
      let networkTopologyWrapped :=
        networkTopology.map (fun e => "upload network topology: " ++ e)
      match errgroupWait downloadFirst downloadWrapped networkTopologyWrapped with
      | some err => (Except.error err, false)
      | none =>
          match closeAndRecv with
          | some err => (Except.error err, true)
          | none => (Except.ok (), true)

/-! ## A concrete sample configuration for witnesses -/

/-- A sample configuration used by concrete witnesses and
counterexamples. -/
def cfg0 : Config :=
  { server := { host := "scheduler-0", advertiseIP := "10.0.0.1", advertisePort := 8002 }
    host := { idc := "idc-a", location := "lab" }
    manager := { schedulerClusterID := 7, keepAlive := { interval := 5 } }
    trainer := { interval := 10, uploadTimeout := 30 } }

/-- A sample announcer built from `cfg0`, trainer configured, not yet
stopped. -/
def a0 : AnnouncerState :=
  { config := cfg0, hasTrainerClient := true, doneClosed := false }

/-- Recognizer for `keepAliveStart` call events. -/
def CallEvent.isKeepAliveStart : CallEvent → Bool
  | CallEvent.keepAliveStart _ _ => true
  | _ => false

/-! ## Shared helper lemmas -/

theorem uploadBufferSize_pos : 0 < UploadBufferSize := by
  rw [UploadBufferSize]
  norm_num

/-- The payloads `uploadDownloadToTrainer` sends on an error-free stream
are the dataset's maximal 1 MiB chunks followed by one empty payload. -/
theorem downloadPayloads_eq (cfg : Config) (data : List Nat) :
    downloadPayloads cfg data = specChunks UploadBufferSize data ++ [[]] := by
  rw [downloadPayloads, uploadDownloadToTrainer]
  rw [uploadLoop_streamReads UploadBufferSize uploadBufferSize_pos (mkMlpRequest cfg) data 0]
  have hfun : TrainRequest.dataset ∘ mkMlpRequest cfg = id := funext fun c => rfl
  simp [List.map_map, hfun, mkMlpRequest]

/-- The payloads `uploadNetworkTopologyToTrainer` sends on an error-free
stream are the dataset's maximal 1 MiB chunks followed by one empty
payload. -/
theorem topologyPayloads_eq (cfg : Config) (data : List Nat) :
    topologyPayloads cfg data = specChunks UploadBufferSize data ++ [[]] := by
  rw [topologyPayloads, uploadNetworkTopologyToTrainer]
  rw [uploadLoop_streamReads UploadBufferSize uploadBufferSize_pos (mkGnnRequest cfg) data 0]
  have hfun : TrainRequest.dataset ∘ mkGnnRequest cfg = id := funext fun c => rfl
  simp [List.map_map, hfun, mkGnnRequest]

/-- Classification of the training loop's outcome: on a finite script it
either has not returned yet, or it returned nil because the shutdown
signal fired. -/
theorem announceToTrainer_classify (events : List LoopEvent) :
    announceToTrainer events = none ∨
      (announceToTrainer events = some (Except.ok ()) ∧ LoopEvent.done ∈ events) := by
  induction events with
  | nil => exact Or.inl rfl
  | cons h t ih =>
      cases h with
      | tick r =>
          rcases ih with h1 | ⟨h1, h2⟩
          · exact Or.inl (by simpa [announceToTrainer] using h1)
          · exact Or.inr ⟨by simpa [announceToTrainer] using h1, List.mem_cons_of_mem _ h2⟩
      | done => exact Or.inr ⟨rfl, List.mem_cons_self _ _⟩

/-! ## Claims -/

/-- C1, counterexample: the claim says an error-free dataset of
`k × chunkSize + r` bytes produces exactly the `k` full chunks plus the
partial chunk (`specChunks`), with no empty trailing message.  Already for
the empty dataset (`k = 0`, `r = 0`) the code disagrees: the read that
returns `(0, io.EOF)` is sent before the loop breaks, so one empty-payload
message goes out where the claim predicts none. -/
theorem upload_chunk_messages_counterexample :
    downloadPayloads cfg0 [] = [[]] ∧
    downloadPayloads cfg0 [] ≠ specChunks UploadBufferSize [] := by
  have h : downloadPayloads cfg0 [] = specChunks UploadBufferSize [] ++ [[]] :=
    downloadPayloads_eq cfg0 []
  rw [specChunks_nil] at h ⊢
  simp at h
  simp [h]

/-- C1, amended: for an error-free dataset stream of `k × chunkSize + r`
bytes (`r < chunkSize`), each Upload Task sends exactly `k` full-size
chunk messages, then (iff `r > 0`) exactly one partial chunk message, and
finally exactly one empty-payload message for the read that reported
end-of-stream; the sent payloads are precisely the dataset's maximal
chunks in order followed by that one empty payload (so no data message is
duplicated). -/
theorem upload_chunk_messages (cfg : Config) (data : List Nat) (k r : Nat)
    (hlen : data.length = k * UploadBufferSize + r) (hr : r < UploadBufferSize) :
    downloadPayloads cfg data = specChunks UploadBufferSize data ++ [[]] ∧
    topologyPayloads cfg data = specChunks UploadBufferSize data ++ [[]] ∧
    (downloadPayloads cfg data).countP
      (fun c => decide (c.length = UploadBufferSize)) = k ∧
    (downloadPayloads cfg data).countP
      (fun c => decide (0 < c.length) && decide (c.length < UploadBufferSize))
      = (if 0 < r then 1 else 0) ∧
    (downloadPayloads cfg data).countP (fun c => decide (c.length = 0)) = 1 := by
  have hB : 0 < UploadBufferSize := uploadBufferSize_pos
  have hd := downloadPayloads_eq cfg data
  have ht := topologyPayloads_eq cfg data
  have hfull := specChunks_count_full UploadBufferSize hB k r data hlen hr
  have hpart := specChunks_count_partial UploadBufferSize hB k r data hlen hr
  refine ⟨hd, ht, ?_, ?_, ?_⟩
  · rw [hd, List.countP_append, hfull]
    have : ¬((0 : Nat) = UploadBufferSize) := by omega
    simp [this]
  · rw [hd, List.countP_append, hpart.1]
    simp
  · rw [hd, List.countP_append]
    have hz : (specChunks UploadBufferSize data).countP
        (fun c => decide (c.length = 0)) = 0 := by
      rw [List.countP_eq_zero]
      intro c hc
      have := hpart.2 c hc
      simpa using this
    rw [hz]
    simp

/-- C1, witness for the amended theorem at the empty dataset. -/
theorem upload_chunk_messages_witness :
    (List.length ([] : List Nat) = 0 * UploadBufferSize + 0 ∧ 0 < UploadBufferSize) ∧
    (downloadPayloads cfg0 [] = specChunks UploadBufferSize [] ++ [[]] ∧
     topologyPayloads cfg0 [] = specChunks UploadBufferSize [] ++ [[]] ∧
     (downloadPayloads cfg0 []).countP
       (fun c => decide (c.length = UploadBufferSize)) = 0 ∧
     (downloadPayloads cfg0 []).countP
       (fun c => decide (0 < c.length) && decide (c.length < UploadBufferSize))
       = (if 0 < (0 : Nat) then 1 else 0) ∧
     (downloadPayloads cfg0 []).countP (fun c => decide (c.length = 0)) = 1) :=
  ⟨⟨by simp, uploadBufferSize_pos⟩,
   upload_chunk_messages cfg0 [] 0 0 (by simp) uploadBufferSize_pos⟩

/-- C2, counterexample: `Stop` is not idempotent.  A first `Stop` on a
fresh announcer succeeds, and a second `Stop` panics with
"close of closed channel" because `Stop` closes the raw `done` channel
with no one-shot guard. -/
theorem stop_idempotent_counterexample :
    Stop a0 = Except.ok ({ a0 with doneClosed := true }, none) ∧
    Stop { a0 with doneClosed := true } = Except.error "close of closed channel" :=
  ⟨rfl, rfl⟩

/-- C2, amended: `Stop` is not idempotent: the shutdown gate is a raw
closable channel with no one-shot flag, so a first `Stop` succeeds
(returning a nil error) and a second `Stop` after it faults with a
double-close panic. -/
theorem stop_not_idempotent (a : AnnouncerState) (h : a.doneClosed = false) :
    Stop a = Except.ok ({ a with doneClosed := true }, none) ∧
    Stop { a with doneClosed := true } = Except.error "close of closed channel" := by
  constructor
  · rw [Stop, closeChan, h]
    simp
  · rw [Stop, closeChan]
    simp

/-- C2, witness for the amended theorem at the sample announcer. -/
theorem stop_not_idempotent_witness :
    a0.doneClosed = false ∧
    (Stop a0 = Except.ok ({ a0 with doneClosed := true }, none) ∧
     Stop { a0 with doneClosed := true } = Except.error "close of closed channel") :=
  ⟨rfl, stop_not_idempotent a0 rfl⟩

/-- C3: for every configuration and every manager response, `New` issues
exactly one collaborator call — the `UpdateScheduler` registration built
from the configuration — and nothing else (in particular no keepalive and
no training activity, which only `Serve` can start); on success it returns
the usable announcer. -/
theorem new_registers_exactly_once (cfg : Config) (hasTrainer : Bool)
    (result : Option String) :
    (New cfg hasTrainer result).2
      = [CallEvent.updateScheduler (registrationRequest cfg)] ∧
    (New cfg hasTrainer none).1
      = Except.ok { config := cfg, hasTrainerClient := hasTrainer, doneClosed := false } := by
  constructor
  · cases result <;> rfl
  · rfl

/-- C4: when registration fails, `New` returns exactly the registration
error and no announcer, and its call trace contains no keepalive start
(zero background loops): the only call issued is the failed registration
itself. -/
theorem new_registration_failure (cfg : Config) (hasTrainer : Bool) (e : String) :
    (New cfg hasTrainer (some e)).1 = Except.error e ∧
    (New cfg hasTrainer (some e)).2
      = [CallEvent.updateScheduler (registrationRequest cfg)] ∧
    (New cfg hasTrainer (some e)).2.countP CallEvent.isKeepAliveStart = 0 := by
  refine ⟨rfl, rfl, ?_⟩
  rfl

/-- C5: the round joins both Upload Tasks: a failed download task fails
the round with its error wrapped "upload download: ", a failed topology
task with "upload network topology: ", whichever completion order the two
goroutines have; when both fail, the error of the task that completed
first wins; and the join reports success only when both tasks returned
nil (no task's failure can be dropped). -/
theorem train_joins_both_tasks (e e2 : String) (first : Bool)
    (closeAndRecv : Option String) (d n : Option String) :
    train none (some e) none first closeAndRecv
      = (Except.error ("upload download: " ++ e), false) ∧
    train none none (some e2) first closeAndRecv
      = (Except.error ("upload network topology: " ++ e2), false) ∧
    train none (some e) (some e2) true closeAndRecv
      = (Except.error ("upload download: " ++ e), false) ∧
    train none (some e) (some e2) false closeAndRecv
      = (Except.error ("upload network topology: " ++ e2), false) ∧
    (errgroupWait first d n = none ↔ d = none ∧ n = none) := by
  refine ⟨?_, ?_, ?_, ?_, ?_⟩ <;>
    cases first <;> cases d <;> cases n <;> simp [train, errgroupWait]

/-- C6, counterexample: when both Upload Tasks succeed and
`CloseAndRecv` fails, the round fails with the finalization error
returned as-is — it is not wrapped with a "finalize" stage tag as the
claim states. -/
theorem train_finalize_tag_counterexample :
    train none none none true (some "ack failed")
      = (Except.error "ack failed", true) ∧
    ("ack failed" : String) ≠ "finalize: " ++ "ack failed" := by
  constructor
  · rfl
  · decide

/-- C6, amended: a round finalizes the stream (`CloseAndRecv`) iff both
Upload Tasks succeed — a failed task or a failed stream open prevents
finalization — and when finalization itself fails the round fails with
exactly the `CloseAndRecv` error, unwrapped (no stage tag). -/
theorem train_finalizes_iff_tasks_succeed (d n : Option String) (first : Bool)
    (closeAndRecv : Option String) (e : String) :
    ((train none d n first closeAndRecv).2 = true ↔ d = none ∧ n = none) ∧
    (train (some e) d n first closeAndRecv).2 = false ∧
    train none none none first (some e) = (Except.error e, true) ∧
    train none none none first none = (Except.ok (), true) := by
  refine ⟨?_, ?_, ?_, ?_⟩
  · cases first <;> cases d <;> cases n <;>
      cases closeAndRecv <;> simp [train, errgroupWait]
  · simp [train]
  · cases first <;> simp [train, errgroupWait]
  · cases first <;> simp [train, errgroupWait]

/-- C7: whenever an Upload Task successfully opens its storage stream,
the readable stream is closed on every exit path — for every read script
and every send script, hence on success, on a read error and on a send
error alike (`defer readCloser.Close()`). -/
theorem upload_stream_always_released (cfg : Config) (reads : List ReadResult)
    (send : Nat → Option String) :
    (uploadDownloadToTrainer cfg (Except.ok reads) send).2.2 = true ∧
    (uploadNetworkTopologyToTrainer cfg (Except.ok reads) send).2.2 = true := by
  constructor <;> rfl

/-- C8: the training loop swallows round failures — a tick whose round
fails leaves the loop exactly where it would be without that tick — a
shutdown signal makes it return nil immediately, and on any finite
schedule the loop either has not returned or has returned nil because the
shutdown signal fired; no round failure terminates the loop or surfaces. -/
theorem training_loop_swallows_failures (events rest : List LoopEvent) (e : String) :
    announceToTrainer (LoopEvent.tick (Except.error e) :: rest)
      = announceToTrainer rest ∧
    announceToTrainer (LoopEvent.done :: rest) = some (Except.ok ()) ∧
    (announceToTrainer events = none ∨
      (announceToTrainer events = some (Except.ok ()) ∧ LoopEvent.done ∈ events)) :=
  ⟨rfl, rfl, announceToTrainer_classify events⟩

/-- C9: a read returning `(0, io.EOF)` is still sent: the upload loop
sends one message with an empty payload for it and then returns success,
for any remaining read script; in particular an entirely empty dataset
produces exactly one message per task — empty payload, tagged with its
dataset variant — not zero messages. -/
theorem upload_sends_empty_eof_read (cfg : Config) (rest : List ReadResult) (i : Nat) :
    uploadLoop (mkMlpRequest cfg) sendOk (([], some GoErr.eof) :: rest) i
      = (Except.ok (), [mkMlpRequest cfg []]) ∧
    uploadLoop (mkGnnRequest cfg) sendOk (([], some GoErr.eof) :: rest) i
      = (Except.ok (), [mkGnnRequest cfg []]) ∧
    downloadPayloads cfg [] = [[]] ∧
    topologyPayloads cfg [] = [[]] ∧
    (mkMlpRequest cfg []).tag = DatasetTag.mlp ∧
    (mkGnnRequest cfg []).tag = DatasetTag.gnn := by
  refine ⟨?_, ?_, ?_, ?_, rfl, rfl⟩
  · simp [uploadLoop, sendOk]
  · simp [uploadLoop, sendOk]
  · rw [downloadPayloads_eq, specChunks_nil]
    rfl
  · rw [topologyPayloads_eq, specChunks_nil]
    rfl

/-- C10: `Serve` never returns a non-nil error: for every announcer state
and every finite loop schedule it either is still blocked in the training
loop or has returned nil — every error-return path in its signature is
unreachable, because `announceToManager` always returns nil and
`announceToTrainer` only ever returns nil. -/
theorem serve_never_errors (a : AnnouncerState) (events : List LoopEvent) :
    ((Serve a events).1 = none ∨ (Serve a events).1 = some (Except.ok ())) ∧
    (announceToManager a).1 = none := by
  refine ⟨?_, rfl⟩
  rw [Serve]
  rcases announceToTrainer_classify events with h | ⟨h, _⟩ <;>
    cases hc : a.hasTrainerClient <;> simp [announceToManager, hc, h]

end Announcer
